import Mathlib

/-!
Verification of the AI-Assisted-Daily-Journal server and client logic.

Shallow embedding of:
  - the enrichment client analyzeWithAI (src/Server/routes/journal.js, lines 11-32,
    and the alternate variant src/unnamed/part_003, lines 22-81);
  - the journal CRUD handlers (POST / PUT / GET / DELETE of src/Server/routes/journal.js);
  - the Mongoose journal schema validation (src/unnamed/part_001);
  - the streak, weekly-stats and achievements computations
    (src/Server/routes/journal.js lines 150-234, src/Website/src/App.jsx);
  - the daily-challenge submission handler (src/Server/routes/journal.js lines 283-297)
    and the Challenge model (src/Server/models/Challenge.js).

Conventions: JavaScript string falsiness is modelled by equality with the empty
string; the external generative-text provider is an oracle input (its possible
outcomes are a parameter of each analysis function); timestamps are integer
milliseconds and calendar-day normalisation (setHours(0,0,0,0) / toISOString
day key) is floor-division by 86400000, the UTC model of local midnight.
-/

namespace Journal

/-- Result of one enrichment analysis: the summary and mood pair. -/
structure AnalysisResult where
  summary : String
  mood : String
deriving DecidableEq, Repr

/-- The fixed fallback value of the enrichment client
(journal.js lines 27-30 and part_003 lines 25, 79). -/
def fallbackAnalysis : AnalysisResult :=
  { summary := "AI analysis unavailable", mood := "neutral" }

/-- The decoded JSON object of a provider response: the summary and mood
fields as strings, with the empty string standing for a missing or falsy
field (JavaScript parsed.summary / parsed.mood). -/
structure ParsedAnalysis where
  summary : String
  mood : String
deriving DecidableEq, Repr

/-- JavaScript s || d on strings: d when s is falsy (empty), s otherwise. -/
def orFalsy (s d : String) : String :=
  if s = "" then d else s

/-- Outcome of the provider call in the journal.js variant: either the call
(or response extraction) raises, or it returns text whose JSON.parse result
is given as an oracle (none when JSON.parse would throw). -/
inductive ProviderResponse where
  | raises : ProviderResponse
  | returns : Option ParsedAnalysis → ProviderResponse
deriving DecidableEq, Repr

/-- The provider response is an internal error of the enrichment step:
the call raised, or the returned text is not decodable JSON. -/
def ProviderResponse.erroring : ProviderResponse → Prop
  | .raises => True
  | .returns none => True
  | .returns (some _) => False

instance : DecidablePred ProviderResponse.erroring := by
  intro r
  cases r with
  | raises => exact .isTrue trivial
  | returns o => cases o with
    | none => exact .isTrue trivial
    | some p => exact .isFalse (fun h => h)

/-- analyzeWithAI of src/Server/routes/journal.js lines 11-32: any exception
(provider error or JSON.parse failure) is caught and replaced by the fallback;
a decoded object yields its summary and mood with falsy-field defaults. -/
def analyzeWithAI (resp : ProviderResponse) : AnalysisResult :=
  match resp with
  | .raises => fallbackAnalysis
  | .returns none => fallbackAnalysis
  | .returns (some parsed) =>
      { summary := orFalsy parsed.summary "No summary available"
        mood := orFalsy parsed.mood "neutral" }

/-- Outcome of the provider call in the part_003 variant: the call raises, or
it returns text; the strict JSON.parse result and the result of parsing the
first-JSON-substring regex match are given as oracles (none = that parse
fails, in which case the code falls back to the empty object). -/
inductive ProviderCallB where
  | raises : ProviderCallB
  | returnsText : Option ParsedAnalysis → Option ParsedAnalysis → ProviderCallB
deriving DecidableEq, Repr

/-- Result of the part_003 analyzeWithAI together with whether a provider
call was attempted. -/
structure AnalyzeTrace where
  result : AnalysisResult
  calledProvider : Bool
deriving DecidableEq, Repr

/-- analyzeWithAI of src/unnamed/part_003 lines 22-81: an unconfigured client
or falsy (empty) content short-circuits to the fallback with no provider
call; otherwise one call is made; a raised error yields the fallback; decoded
text tries the strict parse, then the extracted-substring parse, then the
empty object, and fills missing fields with the defaults. -/
def analyzeWithAIB (clientOk : Bool) (content : String) (call : ProviderCallB) :
    AnalyzeTrace :=
  if !clientOk || content = "" then
    { result := fallbackAnalysis, calledProvider := false }
  else
    match call with
    | .raises => { result := fallbackAnalysis, calledProvider := true }
    | .returnsText strict extracted =>
        let parsed := ((strict).orElse (fun _ => extracted)).getD ⟨"", ""⟩
        { result :=
            { summary := orFalsy parsed.summary "No summary available"
              mood := orFalsy parsed.mood "neutral" }
          calledProvider := true }

/-- A journal document as stored by the Mongoose schema of
src/unnamed/part_001: owner, title (trimmed by the schema setter), content,
mood, aiSummary, aiMood and tags. -/
structure JournalDoc where
  user : Nat
  title : String
  content : String
  tags : List String
  aiSummary : String
  aiMood : String
  mood : String
deriving DecidableEq, Repr

/-- The trim setter of the schema (string trim: leading and trailing
whitespace removed), written over the character list so that it evaluates
by kernel reduction. -/
def trimString (s : String) : String :=
  ⟨((s.data.dropWhile Char.isWhitespace).reverse.dropWhile Char.isWhitespace).reverse⟩

/-- The fixed mood enumeration of the journal schema (src/unnamed/part_001,
mood field) and of the enrichment prompt. -/
def moodEnum : List String :=
  ["happy", "sad", "neutral", "excited", "anxious", "calm", "angry", "grateful"]

/-- Mongoose validation run by Journal.create and journal.save: title and
content are required (empty after trimming fails), and an explicitly set mood
must belong to the enum. -/
def saveValidates (j : JournalDoc) : Bool :=
  j.title ≠ "" && j.content ≠ "" && moodEnum.contains j.mood

/-- The document built by the POST /api/journals handler (journal.js lines
75-83) from the request fields and the enrichment result; the schema trims
the title, and absent tags default to the empty list. -/
def mkCreateDoc (uid : Nat) (title content : String) (tags : Option (List String))
    (ai : AnalysisResult) : JournalDoc :=
  { user := uid
    title := trimString title
    content := content
    tags := tags.getD []
    aiSummary := ai.summary
    aiMood := ai.mood
    mood := ai.mood }

/-- Outcome of a create: the persisted document, or the catch branch of the handler
(res.status(500)) reached when the store rejects the write. -/
inductive CreateOutcome where
  | created : JournalDoc → CreateOutcome
  | storeError : CreateOutcome
deriving DecidableEq, Repr

/-- POST /api/journals (journal.js lines 68-89): run the enrichment, build
the document and persist it; a schema-validation rejection raises and is
caught by the generic 500 branch. -/
def postJournal (uid : Nat) (title content : String) (tags : Option (List String))
    (resp : ProviderResponse) : CreateOutcome :=
  let doc := mkCreateDoc uid title content tags (analyzeWithAI resp)
  if saveValidates doc then .created doc else .storeError

/-- What the store write of a create reports: success, a schema-validation
error, or any other persistence-layer failure (connection loss etc.),
the latter modelled by the storeOk flag. -/
inductive StoreWriteResult where
  | success : StoreWriteResult
  | validationError : StoreWriteResult
  | otherError : StoreWriteResult
deriving DecidableEq, Repr

/-- Journal.create against the schema: validation first, then the write
itself can fail for store-internal reasons. -/
def storeCreate (j : JournalDoc) (storeOk : Bool) : StoreWriteResult :=
  if !saveValidates j then .validationError
  else if storeOk then .success
  else .otherError

/-- HTTP status returned by the POST handler: 201 on success; every thrown
error, schema-validation errors included, lands in the single catch branch
and yields 500 (journal.js lines 86-88). -/
def postJournalStatus (uid : Nat) (title content : String)
    (tags : Option (List String)) (resp : ProviderResponse) (storeOk : Bool) : Nat :=
  match storeCreate (mkCreateDoc uid title content tags (analyzeWithAI resp)) storeOk with
  | .success => 201
  | .validationError => 500
  | .otherError => 500

/-- An update request body: title and content with the empty string standing
for an absent or falsy field, tags optional (an empty array is truthy in
JavaScript, so it is kept when supplied). -/
structure UpdateReq where
  title : String
  content : String
  tags : Option (List String)
deriving DecidableEq, Repr

/-- The PUT /api/journals/:id merge step (journal.js lines 105-120): the
enrichment client runs only when the supplied content is truthy and differs
from the stored content, otherwise the stored aiSummary and aiMood are
reused; title, content and tags each keep their prior value when falsy or
absent in the request; aiSummary, aiMood and mood are all set from the
chosen analysis. -/
def putApply (j : JournalDoc) (r : UpdateReq) (resp : ProviderResponse) : JournalDoc :=
  let ai : AnalysisResult :=
    if r.content ≠ "" && r.content ≠ j.content then analyzeWithAI resp
    else { summary := j.aiSummary, mood := j.aiMood }
  { j with
    title := if r.title = "" then j.title else trimString r.title
    content := if r.content = "" then j.content else r.content
    tags := r.tags.getD j.tags
    aiSummary := ai.summary
    aiMood := ai.mood
    mood := ai.mood }

/-- A stored journal: its id together with the document. -/
structure StoredJournal where
  id : Nat
  doc : JournalDoc
deriving DecidableEq, Repr

/-- Journal.findById over the store. -/
def findJournal (store : List StoredJournal) (jid : Nat) : Option StoredJournal :=
  store.find? (fun sj => sj.id == jid)

/-- Outcome of a by-id operation: 200-class success, 404 when the id does
not exist, 403 when the journal exists but is not owned by the caller, and
500 when the store rejects the write. -/
inductive Outcome (α : Type) where
  | ok : α → Outcome α
  | notFound : Outcome α
  | forbidden : Outcome α
  | storeError : Outcome α
deriving DecidableEq, Repr

/-- GET /api/journals/:id (journal.js lines 48-64): 404 when the id is
absent, 403 when the owner differs from the caller, otherwise the journal. -/
def getById (store : List StoredJournal) (uid jid : Nat) : Outcome StoredJournal :=
  match findJournal store jid with
  | none => .notFound
  | some sj =>
      if sj.doc.user ≠ uid then .forbidden
      else .ok sj

/-- PUT /api/journals/:id (journal.js lines 93-125): 404 when absent, 403
when not owned, otherwise merge via putApply and save; a validation
rejection on save lands in the 500 branch and the store keeps the old
document. -/
def putById (store : List StoredJournal) (uid jid : Nat) (r : UpdateReq)
    (resp : ProviderResponse) : Outcome JournalDoc × List StoredJournal :=
  match findJournal store jid with
  | none => (.notFound, store)
  | some sj =>
      if sj.doc.user ≠ uid then (.forbidden, store)
      else
        let j := putApply sj.doc r resp
        if saveValidates j then
          (.ok j, store.map (fun s => if s.id == jid then { s with doc := j } else s))
        else (.storeError, store)

/-- DELETE /api/journals/:id (journal.js lines 129-146): 404 when absent,
403 when not owned, otherwise the journal is removed. -/
def deleteById (store : List StoredJournal) (uid jid : Nat) :
    Outcome Unit × List StoredJournal :=
  match findJournal store jid with
  | none => (.notFound, store)
  | some sj =>
      if sj.doc.user ≠ uid then (.forbidden, store)
      else (.ok (), store.filter (fun s => s.id != jid))

/-- The journal documents producible by this code: one persisted by the
create handler, or the merge-step image of a producible document under any
update request and provider outcome. -/
inductive ReachableDoc : JournalDoc → Prop where
  | created : ∀ uid title content tags resp j,
      postJournal uid title content tags resp = .created j → ReachableDoc j
  | updated : ∀ j r resp, ReachableDoc j → ReachableDoc (putApply j r resp)

/-- The loop of GET /api/journals/stats/streak (journal.js lines 214-228):
walk consecutive entries of the descending list; when the day difference of
a pair is exactly 1 the counter increments and the walk continues, any other
difference breaks the loop. -/
def streakWalk : List Int → Nat → Nat
  | x :: y :: rest, acc => if x - y = 1 then streakWalk (y :: rest) (acc + 1) else acc
  | _, acc => acc

/-- GET /api/journals/stats/streak (journal.js lines 192-234) on the list of
entry calendar days sorted most-recent first: 0 for an empty list, 0 when
the most recent day is more than 1 day before today, otherwise the walk
starting from counter 1. -/
def getStreak (today : Int) (days : List Int) : Nat :=
  match days with
  | [] => 0
  | d :: _ => if today - d > 1 then 0 else streakWalk days 1

/-- Modelled from the claim: the walk over DISTINCT entry days, the first
day always counting and each later day counting exactly when it is 1 day
before the previously counted day. -/
def specWalkDistinct : List Int → Nat
  | [] => 0
  | [_] => 1
  | x :: y :: rest => if x - y = 1 then 1 + specWalkDistinct (y :: rest) else 1

/-- Modelled from the claim: 0 when the list is empty or the most recent day
is 2 or more days before today, otherwise the distinct-day walk. -/
def streakSpecDistinct (today : Int) (days : List Int) : Nat :=
  match days with
  | [] => 0
  | d :: _ => if 2 ≤ today - d then 0 else specWalkDistinct days.dedup

/-- Milliseconds per calendar day. -/
def msPerDay : Int := 86400000

/-- The ISO calendar-day key of a timestamp (toISOString day prefix), in the
UTC model: floor division by the day length. -/
def dayKey (t : Int) : Int := Int.fdiv t msPerDay

/-- The createdAt filter of GET /api/journals/stats/weekly (journal.js lines
152-157): the query is createdAt gte now minus 7 days, an INCLUSIVE lower
boundary. -/
def inWindow (now t : Int) : Bool := now - 7 * msPerDay ≤ t

/-- Modelled from the claim: an exclusive boundary at exactly 7 times 24
hours prior. -/
def inWindowClaim (now t : Int) : Bool := now - 7 * msPerDay < t

/-- One step of the grouping loop (journal.js line 164): bump the count of
the day key of the entry, inserting the key at count 1 when missing. -/
def bumpDay : List (Int × Nat) → Int → List (Int × Nat)
  | [], d => [(d, 1)]
  | (k, c) :: rest, d =>
      if k = d then (k, c + 1) :: rest else (k, c) :: bumpDay rest d

/-- GET /api/journals/stats/weekly (journal.js lines 150-171) on the list of
createdAt timestamps: filter to the trailing window, then group by calendar
day; days with no entry are absent from the result. -/
def weeklyStats (now : Int) (entries : List Int) : List (Int × Nat) :=
  (entries.filter (inWindow now)).foldl (fun st t => bumpDay st (dayKey t)) []

/-- Count looked up in the weekly aggregate, 0 when the day is absent. -/
def lookupCount (stats : List (Int × Nat)) (d : Int) : Nat :=
  ((stats.find? (fun p => p.1 == d)).map Prod.snd).getD 0

/-- The 7-slot zero-filled charting series of src/Website/src/App.jsx lines
646-655: slot i holds the number of entries whose calendar day equals the
day 6 - i days before now. -/
def weeklySeries (nowDay : Int) (entryDays : List Int) : List Nat :=
  (List.range 7).map (fun i => (entryDays.filter (fun d => d == nowDay - (6 - i : Nat))).length)

/-- An achievement row of src/Website/src/App.jsx lines 196-213. -/
structure Achievement where
  name : String
  icon : String
  color : String
deriving DecidableEq, Repr

/-- The Emotion Explorer condition (App.jsx lines 208-210): every one of the
four listed moods occurs among the journals. -/
def hasAllMoods (journals : List JournalDoc) : Bool :=
  ["happy", "sad", "excited", "calm"].all (fun m => journals.any (fun j => j.mood == m))

/-- calculateAchievements of src/Website/src/App.jsx lines 196-213: the
fixed threshold table, each row appended independently in order. -/
def calculateAchievements (journals : List JournalDoc) (streak : Nat) : List Achievement :=
  (if journals.length ≥ 1 then [⟨"First Entry", "🎯", "blue"⟩] else [])
  ++ (if journals.length ≥ 5 then [⟨"Getting Started", "🌱", "green"⟩] else [])
  ++ (if journals.length ≥ 10 then [⟨"Dedicated Writer", "✍️", "purple"⟩] else [])
  ++ (if journals.length ≥ 30 then [⟨"Journal Master", "👑", "yellow"⟩] else [])
  ++ (if streak ≥ 3 then [⟨"3 Day Streak", "🔥", "orange"⟩] else [])
  ++ (if streak ≥ 7 then [⟨"Week Warrior", "⚡", "red"⟩] else [])
  ++ (if streak ≥ 30 then [⟨"Monthly Legend", "🏆", "gold"⟩] else [])
  ++ (if hasAllMoods journals then [⟨"Emotion Explorer", "🎭", "pink"⟩] else [])

/-- A persisted challenge record (src/Server/models/Challenge.js). -/
structure ChallengeDoc where
  user : Nat
  date : Int
  question : String
  answer : String
deriving DecidableEq, Repr

/-- The server state visible to the challenge endpoint: the journal store
and the challenge collection carrying the per-user-per-day unique index. -/
structure AppState where
  journals : List StoredJournal
  challenges : List ChallengeDoc
deriving DecidableEq, Repr

/-- The JSON body returned by POST /api/journals/challenge/submit. -/
structure ChallengeResponse where
  success : Bool
  message : String
  points : Nat
deriving DecidableEq, Repr

/-- POST /api/journals/challenge/submit (journal.js lines 283-297): the
answer is read from the body and discarded, nothing is written, and the
fixed success body is returned. -/
def challengeSubmit (st : AppState) (answer : Option String) :
    ChallengeResponse × AppState :=
  (⟨true, "Challenge completed!", 10⟩, st)

/-! Helper lemmas shared by the claim theorems. -/

/-- A string absent from a list is not found by contains. -/
theorem contains_eq_false_of_not_mem (s : String) (l : List String) (h : s ∉ l) :
    l.contains s = false := by
  induction l with
  | nil => rfl
  | cons a rest ih =>
    simp only [List.contains_cons]
    have h1 : s ≠ a := fun he => h (by simp [he])
    have h2 : s ∉ rest := fun he => h (List.mem_cons_of_mem _ he)
    simp [h1, ih h2, h2]

/-- Every document the program can produce keeps mood equal to aiMood: the
create handler and the update merge both write the two fields from the same
analysis value. -/
theorem reachable_mood_eq_aiMood (j : JournalDoc) (h : ReachableDoc j) :
    j.mood = j.aiMood := by
  induction h with
  | created uid title content tags resp j heq =>
    rw [postJournal] at heq
    split at heq
    · cases heq
      rfl
    · cases heq
  | updated j r resp hj ih =>
    simp [putApply]

/-- When the supplied content is falsy or equal to the stored content, the
merge step reuses the stored analysis and keeps the stored content. -/
theorem putApply_no_change (j : JournalDoc) (r : UpdateReq) (resp : ProviderResponse)
    (hc : r.content = "" ∨ r.content = j.content) :
    (putApply j r resp).aiSummary = j.aiSummary
    ∧ (putApply j r resp).aiMood = j.aiMood
    ∧ (putApply j r resp).mood = j.aiMood
    ∧ (putApply j r resp).content = j.content := by
  rcases hc with h | h <;> simp [putApply, h]

/-- The streak loop equals the distinct-day walk shifted by the initial
counter, on any nonempty list. -/
theorem streakWalk_spec (x : Int) (l : List Int) (acc : Nat) :
    streakWalk (x :: l) acc = acc + specWalkDistinct (x :: l) - 1 := by
  induction l generalizing x acc with
  | nil => simp [streakWalk, specWalkDistinct]
  | cons y rest ih =>
    rw [streakWalk, specWalkDistinct]
    by_cases h : x - y = 1
    · rw [if_pos h, if_pos h, ih]
      omega
    · rw [if_neg h, if_neg h]
      omega

/-- Bumping a day key raises exactly that count by one. -/
theorem lookupCount_bumpDay (st : List (Int × Nat)) (k d : Int) :
    lookupCount (bumpDay st k) d = lookupCount st d + (if k = d then 1 else 0) := by
  induction st with
  | nil =>
    by_cases h : k = d <;> simp [bumpDay, lookupCount, h]
  | cons p rest ih =>
    obtain ⟨pk, pc⟩ := p
    by_cases hpk : pk = k
    · subst hpk
      by_cases h : pk = d <;> simp [bumpDay, lookupCount, h]
    · by_cases h : pk = d
      · subst h
        simp [bumpDay, lookupCount, hpk, if_neg hpk]
        have : ¬ (k = pk) := fun hh => hpk hh.symm
        simp [this]
      · simp [bumpDay, lookupCount, hpk, h] at ih ⊢
        simp [ih]

/-- The grouping fold counts, per day key, the entries mapping to it. -/
theorem lookupCount_foldl (l : List Int) (st : List (Int × Nat)) (d : Int) :
    lookupCount (l.foldl (fun s t => bumpDay s (dayKey t)) st) d =
      lookupCount st d + (l.filter (fun t => dayKey t == d)).length := by
  induction l generalizing st with
  | nil => simp
  | cons t rest ih =>
    simp only [List.foldl_cons, List.filter_cons]
    rw [ih, lookupCount_bumpDay]
    by_cases h : dayKey t = d <;> simp [h] <;> omega

/-- Bumping preserves positivity of all stored counts. -/
theorem bumpDay_pos (st : List (Int × Nat)) (k : Int)
    (h : ∀ p ∈ st, 1 ≤ p.2) : ∀ p ∈ bumpDay st k, 1 ≤ p.2 := by
  induction st with
  | nil => simp [bumpDay]
  | cons q rest ih =>
    obtain ⟨qk, qc⟩ := q
    intro p hp
    by_cases hk : qk = k
    · simp [bumpDay, hk] at hp
      rcases hp with hp | hp
      · subst hp; simp
      · exact h p (List.mem_cons_of_mem _ hp)
    · simp [bumpDay, hk] at hp
      rcases hp with hp | hp
      · subst hp; exact h ⟨qk, qc⟩ (List.mem_cons_self _ _)
      · exact ih (fun q hq => h q (List.mem_cons_of_mem _ hq)) p hp

/-- Every count stored in the weekly aggregate is at least one. -/
theorem weeklyStats_pos (now : Int) (entries : List Int) :
    ∀ p ∈ weeklyStats now entries, 1 ≤ p.2 := by
  rw [weeklyStats]
  generalize entries.filter (inWindow now) = l
  induction l using List.reverseRecOn with
  | nil => simp
  | append_singleton rest t ih =>
    rw [List.foldl_append, List.foldl_cons, List.foldl_nil]
    exact bumpDay_pos _ _ ih

/-- With positive stored counts, a day key is absent from the aggregate
exactly when its count is zero. -/
theorem find?_none_iff_lookupCount_zero (stats : List (Int × Nat))
    (hpos : ∀ p ∈ stats, 1 ≤ p.2) (d : Int) :
    (stats.find? (fun p => p.1 == d) = none) ↔ lookupCount stats d = 0 := by
  constructor
  · intro h; simp [lookupCount, h]
  · intro h
    cases hf : stats.find? (fun p => p.1 == d) with
    | none => rfl
    | some p =>
      have hmem := List.mem_of_find?_eq_some hf
      have := hpos p hmem
      simp [lookupCount, hf] at h
      omega

/-- Membership of a singleton guarded by a condition. -/
theorem mem_ite_singleton {α : Type} (a b : α) (c : Prop) [Decidable c] :
    (a ∈ if c then [b] else []) ↔ (c ∧ a = b) := by
  split <;> simp_all

/-! Claim theorems. -/

/-- C1: no error arising in the enrichment step aborts a create or update.
Whenever the provider call raises or its response is undecodable, the
analyze function returns the fallback value summary "AI analysis
unavailable" and mood neutral; the create handler then proceeds to the
persistence step and succeeds whenever the store accepts the write (title
and content valid), and the update handler likewise proceeds to the
persistence step and succeeds whenever the store accepts the merged
document. -/
theorem c1_enrichment_never_aborts (resp : ProviderResponse) (herr : resp.erroring) :
    analyzeWithAI resp = fallbackAnalysis
    ∧ (∀ (uid : Nat) (title content : String) (tags : Option (List String)),
        trimString title ≠ "" → content ≠ "" →
        postJournal uid title content tags resp =
          .created (mkCreateDoc uid title content tags fallbackAnalysis))
    ∧ (∀ (store : List StoredJournal) (uid jid : Nat) (sj : StoredJournal) (r : UpdateReq),
        findJournal store jid = some sj → sj.doc.user = uid →
        saveValidates (putApply sj.doc r resp) = true →
        (putById store uid jid r resp).1 = .ok (putApply sj.doc r resp)) := by
  have hfb : analyzeWithAI resp = fallbackAnalysis := by
    cases resp with
    | raises => rfl
    | returns o =>
      cases o with
      | none => rfl
      | some p => exact absurd herr (by simp [ProviderResponse.erroring])
  refine ⟨hfb, ?_, ?_⟩
  · intro uid title content tags ht hcont
    have hval : saveValidates (mkCreateDoc uid title content tags fallbackAnalysis) = true := by
      simp [mkCreateDoc, saveValidates, fallbackAnalysis, moodEnum, ht, hcont]
    rw [postJournal, hfb, if_pos hval]
  · intro store uid jid sj r hfind howner hval
    rw [putById, hfind]
    simp only [howner, ne_eq, not_true_eq_false, if_false, hval, if_true]

/-- C1 witness: the theorem applied to a raising provider call, a concrete
valid create request and a concrete owned journal. -/
theorem c1_witness :
    analyzeWithAI .raises = fallbackAnalysis
    ∧ postJournal 1 "My day" "It was fine" none .raises =
        .created (mkCreateDoc 1 "My day" "It was fine" none fallbackAnalysis)
    ∧ (putById [⟨5, ⟨1, "My day", "It was fine", [], "s", "neutral", "neutral"⟩⟩] 1 5
        ⟨"", "", none⟩ .raises).1 =
        .ok (putApply ⟨1, "My day", "It was fine", [], "s", "neutral", "neutral"⟩
          ⟨"", "", none⟩ .raises) := by
  obtain ⟨h1, h2, h3⟩ := c1_enrichment_never_aborts .raises trivial
  exact ⟨h1, h2 1 "My day" "It was fine" none (by decide) (by decide),
    h3 [⟨5, ⟨1, "My day", "It was fine", [], "s", "neutral", "neutral"⟩⟩] 1 5
      ⟨5, ⟨1, "My day", "It was fine", [], "s", "neutral", "neutral"⟩⟩
      ⟨"", "", none⟩ rfl rfl (by decide)⟩

/-- C2 counterexample: a decoded mood outside the enum is passed through by
the analyze function, and the create operation then fails with the generic
store error instead of storing neutral; nothing is persisted at all. -/
theorem c2_counterexample :
    (analyzeWithAI (.returns (some ⟨"a summary", "ecstatic"⟩))).mood = "ecstatic"
    ∧ "ecstatic" ∉ moodEnum
    ∧ postJournal 1 "t" "c" none (.returns (some ⟨"a summary", "ecstatic"⟩)) =
        .storeError := by decide

/-- C2 amended: a decoded truthy mood outside the fixed enum is NOT replaced
with neutral; the analyze function returns it verbatim, and both the create
and the content-changed update are then rejected by the schema enum check of
the store, returning the generic store error, so no journal is persisted
with that mood (and none with neutral either). -/
theorem c2_amended_mood_passthrough (parsed : ParsedAnalysis) (hm : parsed.mood ≠ "")
    (hout : parsed.mood ∉ moodEnum) :
    (analyzeWithAI (.returns (some parsed))).mood = parsed.mood
    ∧ (∀ (uid : Nat) (title content : String) (tags : Option (List String)),
        postJournal uid title content tags (.returns (some parsed)) = .storeError)
    ∧ (∀ (store : List StoredJournal) (uid jid : Nat) (sj : StoredJournal) (r : UpdateReq),
        findJournal store jid = some sj → sj.doc.user = uid →
        r.content ≠ "" → r.content ≠ sj.doc.content →
        (putById store uid jid r (.returns (some parsed))).1 = .storeError) := by
  have hmood : (analyzeWithAI (.returns (some parsed))).mood = parsed.mood := by
    simp [analyzeWithAI, orFalsy, hm]
  have hnc := contains_eq_false_of_not_mem parsed.mood moodEnum hout
  have hval : ∀ doc : JournalDoc, doc.mood = parsed.mood → saveValidates doc = false := by
    intro doc hd
    simp [saveValidates, hd, hnc, hout]
  refine ⟨hmood, ?_, ?_⟩
  · intro uid title content tags
    have h := hval (mkCreateDoc uid title content tags
      (analyzeWithAI (.returns (some parsed)))) (by simp [mkCreateDoc, hmood])
    rw [postJournal]
    simp [h]
  · intro store uid jid sj r hfind howner hc1 hc2
    have hmp : (putApply sj.doc r (.returns (some parsed))).mood = parsed.mood := by
      simp [putApply, hc1, hc2, hmood]
    have h := hval _ hmp
    rw [putById, hfind]
    simp [howner, h]

/-- C2 witness: the amended theorem applied to the decoded mood ecstatic, a
concrete create request and a concrete owned journal updated with changed
content. -/
theorem c2_witness :
    (analyzeWithAI (.returns (some ⟨"a summary", "ecstatic"⟩))).mood = "ecstatic"
    ∧ postJournal 1 "t" "c" none (.returns (some ⟨"a summary", "ecstatic"⟩)) = .storeError
    ∧ (putById [⟨5, ⟨2, "t", "c", [], "s", "neutral", "neutral"⟩⟩] 2 5
        ⟨"", "something new", none⟩ (.returns (some ⟨"a summary", "ecstatic"⟩))).1 =
        .storeError := by
  obtain ⟨h1, h2, h3⟩ := c2_amended_mood_passthrough ⟨"a summary", "ecstatic"⟩
    (by decide) (by decide)
  exact ⟨h1, h2 1 "t" "c" none,
    h3 _ 2 5 _ ⟨"", "something new", none⟩ rfl rfl (by decide) (by decide)⟩

/-- C3: for every journal the program can produce (and such journals always
satisfy mood equals aiMood) and every update request whose supplied content
is absent or equal to the stored content, the merge step leaves aiSummary,
aiMood and mood unchanged, and a repeated application of the same update
leaves them unchanged as well. -/
theorem c3_noop_update_idempotent (j : JournalDoc) (hreach : ReachableDoc j)
    (r : UpdateReq) (hc : r.content = "" ∨ r.content = j.content)
    (resp resp2 : ProviderResponse) :
    ((putApply j r resp).aiSummary = j.aiSummary
      ∧ (putApply j r resp).aiMood = j.aiMood
      ∧ (putApply j r resp).mood = j.mood)
    ∧ ((putApply (putApply j r resp) r resp2).aiSummary = j.aiSummary
      ∧ (putApply (putApply j r resp) r resp2).aiMood = j.aiMood
      ∧ (putApply (putApply j r resp) r resp2).mood = j.mood) := by
  have hmood := reachable_mood_eq_aiMood j hreach
  obtain ⟨h1, h2, h3, h4⟩ := putApply_no_change j r resp hc
  have hc2 : r.content = "" ∨ r.content = (putApply j r resp).content := by
    rw [h4]; exact hc
  obtain ⟨g1, g2, g3, g4⟩ := putApply_no_change (putApply j r resp) r resp2 hc2
  refine ⟨⟨h1, h2, ?_⟩, ⟨?_, ?_, ?_⟩⟩
  · rw [h3, hmood]
  · rw [g1, h1]
  · rw [g2, h2]
  · rw [g3, h2, hmood]

/-- C3 witness: the theorem applied to a concrete journal produced by the
create handler and an update that supplies a new title but no content. -/
theorem c3_witness :
    ((putApply ⟨1, "t", "c", [], "AI analysis unavailable", "neutral", "neutral"⟩
        ⟨"New title", "", none⟩ .raises).aiSummary = "AI analysis unavailable"
      ∧ (putApply ⟨1, "t", "c", [], "AI analysis unavailable", "neutral", "neutral"⟩
        ⟨"New title", "", none⟩ .raises).aiMood = "neutral"
      ∧ (putApply ⟨1, "t", "c", [], "AI analysis unavailable", "neutral", "neutral"⟩
        ⟨"New title", "", none⟩ .raises).mood = "neutral")
    ∧ ((putApply (putApply ⟨1, "t", "c", [], "AI analysis unavailable", "neutral", "neutral"⟩
        ⟨"New title", "", none⟩ .raises) ⟨"New title", "", none⟩ .raises).aiSummary =
          "AI analysis unavailable"
      ∧ (putApply (putApply ⟨1, "t", "c", [], "AI analysis unavailable", "neutral", "neutral"⟩
        ⟨"New title", "", none⟩ .raises) ⟨"New title", "", none⟩ .raises).aiMood = "neutral"
      ∧ (putApply (putApply ⟨1, "t", "c", [], "AI analysis unavailable", "neutral", "neutral"⟩
        ⟨"New title", "", none⟩ .raises) ⟨"New title", "", none⟩ .raises).mood = "neutral") := by
  have hreach : ReachableDoc ⟨1, "t", "c", [], "AI analysis unavailable", "neutral", "neutral"⟩ :=
    ReachableDoc.created 1 "t" "c" none .raises _ (by decide)
  exact c3_noop_update_idempotent
    ⟨1, "t", "c", [], "AI analysis unavailable", "neutral", "neutral"⟩ hreach
    ⟨"New title", "", none⟩ (Or.inl rfl) .raises .raises

/-- C4 counterexample: on two entries sharing the calendar day today followed
by one yesterday, the code walks consecutive entries and stops at the
repeated day, returning 1, while the claimed distinct-day walk returns 2. -/
theorem c4_counterexample :
    getStreak 10 [10, 10, 9] = 1 ∧ streakSpecDistinct 10 [10, 10, 9] = 2 := by decide

/-- C4 amended: the claimed distinct-day characterisation of the streak holds
exactly on runs in which no two entries share a calendar day; the listed
scenarios all hold for any value of today. When a day repeats, the loop
stops at the repeated entry instead of merging it. -/
theorem c4_streak_amended :
    (∀ (today : Int) (days : List Int), days.Nodup →
        getStreak today days = streakSpecDistinct today days)
    ∧ (∀ t : Int,
        getStreak t [t, t - 1, t - 2] = 3
        ∧ getStreak t [t, t - 3] = 1
        ∧ getStreak t [t - 3] = 0
        ∧ getStreak t [] = 0
        ∧ getStreak t [t - 1, t - 2] = 2) := by
  constructor
  · intro today days h
    cases days with
    | nil => rfl
    | cons d rest =>
      have hd : (d :: rest).dedup = d :: rest := List.dedup_eq_self.mpr h
      rw [getStreak, streakSpecDistinct, hd]
      by_cases hgt : today - d > 1
      · rw [if_pos hgt, if_pos (by omega)]
      · rw [if_neg hgt, if_neg (by omega), streakWalk_spec]
        omega
  · intro t
    refine ⟨?_, ?_, ?_, rfl, ?_⟩
    · simp only [getStreak, streakWalk]
      norm_num
    · simp only [getStreak, streakWalk]
      norm_num
    · simp only [getStreak, streakWalk]
      norm_num
    · simp only [getStreak, streakWalk]
      rw [if_neg (by omega), if_pos (by omega)]

/-- C4 witness: the amended theorem applied to a concrete duplicate-free run
of entry days. -/
theorem c4_witness : getStreak 10 [10, 9, 7] = streakSpecDistinct 10 [10, 9, 7] :=
  c4_streak_amended.1 10 [10, 9, 7] (by decide)

/-- C5: for every store, caller and id, each of get, update and delete
returns Forbidden whenever a journal with that id exists whose owner is not
the caller, and returns NotFound exactly when no journal with that id
exists. -/
theorem c5_ownership_forbidden_vs_notfound (store : List StoredJournal) (uid jid : Nat)
    (r : UpdateReq) (resp : ProviderResponse) :
    (∀ sj, findJournal store jid = some sj → sj.doc.user ≠ uid →
        getById store uid jid = .forbidden
        ∧ (putById store uid jid r resp).1 = .forbidden
        ∧ (deleteById store uid jid).1 = .forbidden)
    ∧ (getById store uid jid = .notFound ↔ findJournal store jid = none)
    ∧ ((putById store uid jid r resp).1 = .notFound ↔ findJournal store jid = none)
    ∧ ((deleteById store uid jid).1 = .notFound ↔ findJournal store jid = none) := by
  refine ⟨?_, ?_, ?_, ?_⟩
  · intro sj hfind howner
    refine ⟨?_, ?_, ?_⟩ <;> simp [getById, putById, deleteById, hfind, howner]
  · cases hfind : findJournal store jid with
    | none => simp [getById, hfind]
    | some sj =>
      simp only [getById, hfind]
      constructor
      · intro h
        by_cases howner : sj.doc.user ≠ uid <;> simp [howner] at h
      · intro h
        cases h
  · cases hfind : findJournal store jid with
    | none => simp [putById, hfind]
    | some sj =>
      simp only [putById, hfind]
      constructor
      · intro h
        by_cases howner : sj.doc.user ≠ uid
        · simp [howner] at h
        · by_cases hval : saveValidates (putApply sj.doc r resp) = true <;>
            simp [howner, hval] at h
      · intro h
        cases h
  · cases hfind : findJournal store jid with
    | none => simp [deleteById, hfind]
    | some sj =>
      simp only [deleteById, hfind]
      constructor
      · intro h
        by_cases howner : sj.doc.user ≠ uid <;> simp [howner] at h
      · intro h
        cases h

/-- C5 witness: a store holding one journal owned by user 2, accessed by
user 1: all three operations return Forbidden on the existing id, and get
returns NotFound exactly on the missing id 9. -/
theorem c5_witness :
    getById [⟨5, ⟨2, "t", "c", [], "s", "neutral", "neutral"⟩⟩] 1 5 = .forbidden
    ∧ (putById [⟨5, ⟨2, "t", "c", [], "s", "neutral", "neutral"⟩⟩] 1 5
        ⟨"", "", none⟩ .raises).1 = .forbidden
    ∧ (deleteById [⟨5, ⟨2, "t", "c", [], "s", "neutral", "neutral"⟩⟩] 1 5).1 = .forbidden
    ∧ (getById [⟨5, ⟨2, "t", "c", [], "s", "neutral", "neutral"⟩⟩] 1 9 = .notFound ↔
        findJournal [⟨5, ⟨2, "t", "c", [], "s", "neutral", "neutral"⟩⟩] 9 = none) := by
  obtain ⟨hf, -, -, -⟩ := c5_ownership_forbidden_vs_notfound
    [⟨5, ⟨2, "t", "c", [], "s", "neutral", "neutral"⟩⟩] 1 5 ⟨"", "", none⟩ .raises
  have h := hf ⟨5, ⟨2, "t", "c", [], "s", "neutral", "neutral"⟩⟩ rfl (by decide)
  exact ⟨h.1, h.2.1, h.2.2,
    (c5_ownership_forbidden_vs_notfound
      [⟨5, ⟨2, "t", "c", [], "s", "neutral", "neutral"⟩⟩] 1 9 ⟨"", "", none⟩ .raises).2.1⟩

/-- C6 counterexample: on whitespace-only content with a configured client
and a successfully decoded provider response, the analyze function of
part_003 attempts the provider call and returns the decoded value, not the
fallback. -/
theorem c6_counterexample :
    (analyzeWithAIB true "   " (.returnsText (some ⟨"A nice day.", "happy"⟩) none)).calledProvider
      = true
    ∧ (analyzeWithAIB true "   " (.returnsText (some ⟨"A nice day.", "happy"⟩) none)).result
      ≠ fallbackAnalysis := by decide

/-- C6 amended: the analyze function returns the fallback without a provider
call exactly when the client is unconfigured or the content is the empty
(falsy) string; every nonempty content, whitespace-only strings included,
attempts the provider call. -/
theorem c6_amended_short_circuit (clientOk : Bool) (content : String)
    (call : ProviderCallB) :
    ((clientOk = false ∨ content = "") →
        analyzeWithAIB clientOk content call =
          { result := fallbackAnalysis, calledProvider := false })
    ∧ (clientOk = true → content ≠ "" →
        (analyzeWithAIB clientOk content call).calledProvider = true) := by
  constructor
  · rintro (h | h) <;> simp [analyzeWithAIB, h]
  · intro h1 h2
    subst h1
    cases call with
    | raises => simp [analyzeWithAIB, h2]
    | returnsText s e => simp [analyzeWithAIB, h2]

/-- C6 witness: the amended theorem applied to an unconfigured client, to
empty content, and to whitespace-only content. -/
theorem c6_witness :
    analyzeWithAIB false "hello" .raises =
      { result := fallbackAnalysis, calledProvider := false }
    ∧ analyzeWithAIB true "" .raises =
      { result := fallbackAnalysis, calledProvider := false }
    ∧ (analyzeWithAIB true "   " .raises).calledProvider = true := by
  refine ⟨(c6_amended_short_circuit false "hello" .raises).1 (Or.inl rfl),
    (c6_amended_short_circuit true "" .raises).1 (Or.inr rfl),
    (c6_amended_short_circuit true "   " .raises).2 rfl (by decide)⟩

/-- C7 counterexample: a create with an empty title returns the same generic
500 as a create that fails for store-internal reasons; no distinct
validation outcome exists. -/
theorem c7_counterexample :
    postJournalStatus 1 "" "hello" none .raises true = 500
    ∧ postJournalStatus 1 "valid title" "hello" none .raises false = 500
    ∧ postJournal 1 "" "hello" none .raises = .storeError := by decide

/-- C7 amended: a create whose title is empty after trimming, or whose
content is empty, is not detected locally; the enrichment still runs, the
schema validation of the store rejects the write, and the handler surfaces
it through the same generic 500 branch used for any store failure. -/
theorem c7_amended_no_local_validation (uid : Nat) (title content : String)
    (tags : Option (List String)) (resp : ProviderResponse) (storeOk : Bool)
    (h : trimString title = "" ∨ content = "") :
    postJournal uid title content tags resp = .storeError
    ∧ postJournalStatus uid title content tags resp storeOk = 500 := by
  have hval : saveValidates (mkCreateDoc uid title content tags (analyzeWithAI resp))
      = false := by
    rcases h with h | h <;> simp [saveValidates, mkCreateDoc, h]
  constructor
  · rw [postJournal]
    simp [hval]
  · rw [postJournalStatus, storeCreate]
    simp [hval]

/-- C7 witness: the amended theorem applied to a whitespace-only title. -/
theorem c7_witness :
    postJournal 1 "   " "hello" none .raises = .storeError
    ∧ postJournalStatus 1 "   " "hello" none .raises true = 500 :=
  c7_amended_no_local_validation 1 "   " "hello" none .raises true (Or.inl (by decide))

/-- C8 counterexample: an entry whose createdAt is exactly 7 times 24 hours
before now is inside the window of the code (the query boundary is gte,
inclusive) but outside the exclusive boundary stated by the claim; the
aggregate counts it. -/
theorem c8_counterexample :
    inWindow 0 (-604800000) = true
    ∧ inWindowClaim 0 (-604800000) = false
    ∧ lookupCount (weeklyStats 0 [-604800000]) (-7) = 1 := by decide

/-- C8 amended: the weekly aggregate counts, for each calendar day, exactly
the entries whose createdAt is at least now minus 7 times 24 hours (an
INCLUSIVE boundary); a day is absent from the aggregate exactly when no
counted entry falls on it; and the 7-slot zero-filled charting series for
entries on day offsets -1, -1 and -3 relative to now holds count 2 at
offset -1, count 1 at offset -3 and 0 elsewhere. -/
theorem c8_weekly_amended :
    (∀ (now : Int) (entries : List Int) (d : Int),
        lookupCount (weeklyStats now entries) d =
          (entries.filter (fun t => inWindow now t && dayKey t == d)).length)
    ∧ (∀ (now : Int) (entries : List Int) (d : Int),
        ((weeklyStats now entries).find? (fun p => p.1 == d) = none ↔
          entries.filter (fun t => inWindow now t && dayKey t == d) = []))
    ∧ (∀ nowDay : Int,
        weeklySeries nowDay [nowDay - 1, nowDay - 1, nowDay - 3] =
          [0, 0, 0, 1, 0, 2, 0]) := by
  have part1 : ∀ (now : Int) (entries : List Int) (d : Int),
      lookupCount (weeklyStats now entries) d =
        (entries.filter (fun t => inWindow now t && dayKey t == d)).length := by
    intro now entries d
    rw [weeklyStats, lookupCount_foldl]
    simp only [lookupCount, List.find?_nil, Option.map, Option.getD, List.filter_filter,
      Nat.zero_add]
    apply congrArg List.length
    apply List.filter_congr
    intro x _
    rw [Bool.and_comm]
  refine ⟨part1, ?_, ?_⟩
  · intro now entries d
    rw [find?_none_iff_lookupCount_zero _ (weeklyStats_pos now entries) d, part1,
      List.length_eq_zero]
  · intro nowDay
    simp only [weeklySeries, List.range_succ, List.range_zero, List.map_append,
      List.map_cons, List.map_nil, List.filter_cons, List.filter_nil, beq_iff_eq,
      sub_right_inj]
    norm_num

/-- C9: the achievements computation returns exactly the qualifying rows of
the fixed table, each condition evaluated independently: the four
entry-count thresholds, the three streak thresholds, and Emotion Explorer
exactly when each of happy, sad, excited and calm occurs among the journal
moods; and a user with exactly 5 neutral-mood entries and streak 2 unlocks
exactly First Entry and Getting Started. -/
theorem c9_achievements (journals : List JournalDoc) (streak : Nat) :
    ((⟨"First Entry", "🎯", "blue"⟩ ∈ calculateAchievements journals streak) ↔
      1 ≤ journals.length)
    ∧ ((⟨"Getting Started", "🌱", "green"⟩ ∈ calculateAchievements journals streak) ↔
      5 ≤ journals.length)
    ∧ ((⟨"Dedicated Writer", "✍️", "purple"⟩ ∈ calculateAchievements journals streak) ↔
      10 ≤ journals.length)
    ∧ ((⟨"Journal Master", "👑", "yellow"⟩ ∈ calculateAchievements journals streak) ↔
      30 ≤ journals.length)
    ∧ ((⟨"3 Day Streak", "🔥", "orange"⟩ ∈ calculateAchievements journals streak) ↔
      3 ≤ streak)
    ∧ ((⟨"Week Warrior", "⚡", "red"⟩ ∈ calculateAchievements journals streak) ↔
      7 ≤ streak)
    ∧ ((⟨"Monthly Legend", "🏆", "gold"⟩ ∈ calculateAchievements journals streak) ↔
      30 ≤ streak)
    ∧ ((⟨"Emotion Explorer", "🎭", "pink"⟩ ∈ calculateAchievements journals streak) ↔
      ((∃ j ∈ journals, j.mood = "happy") ∧ (∃ j ∈ journals, j.mood = "sad")
        ∧ (∃ j ∈ journals, j.mood = "excited") ∧ (∃ j ∈ journals, j.mood = "calm")))
    ∧ (calculateAchievements
        (List.replicate 5 ⟨1, "t", "c", [], "s", "neutral", "neutral"⟩) 2).map
        Achievement.name = ["First Entry", "Getting Started"] := by
  refine ⟨?_, ?_, ?_, ?_, ?_, ?_, ?_, ?_, by decide⟩ <;>
    simp [calculateAchievements, mem_ite_singleton, Achievement.mk.injEq, hasAllMoods,
      List.any_eq_true, and_assoc]

/-- C10: the daily-challenge submission endpoint returns success with the
fixed message and 10 points for every state and every request body, and
leaves the whole server state, the challenge collection with its
per-user-per-day unique index included, untouched. -/
theorem c10_challenge_submit_no_op (st : AppState) (answer : Option String) :
    challengeSubmit st answer =
      ({ success := true, message := "Challenge completed!", points := 10 }, st)
    ∧ (challengeSubmit st answer).2.challenges = st.challenges
    ∧ (challengeSubmit st answer).2.journals = st.journals :=
  ⟨rfl, rfl, rfl⟩

end Journal
